import Mathlib

set_option autoImplicit false

/-!
Verification of the journey-stats chat front-end: a shallow embedding of the
MCP tool-host client (`mcp-client.ts`, in its validating and its wired,
non-validating variant), the OpenAI chat client (`openai-client.ts`) and the
chat orchestration hook (`useChat`), together with proofs of the spec's
testable properties.
-/

/-- Dynamic (JavaScript/JSON) values, as they flow through the untyped parts
of the code: tool arguments, schema defaults and tool results. -/
inductive JSValue where
  | null
  | bool (b : Bool)
  | num (n : Int)
  | str (s : String)
  | arr (elems : List JSValue)
  | obj (fields : List (String × JSValue))

/-- Key lookup in a JS object represented as an ordered field list
(first binding wins; the code never builds duplicate keys). -/
def alookup {β : Type} : List (String × β) → String → Option β
  | [], _ => none
  | p :: rest, k => if p.1 = k then some p.2 else alookup rest k

/-- JS `typeof v === "number"`. -/
def isNumber : JSValue → Bool
  | .num _ => true
  | _ => false

/-- JS `typeof v === "string"`. -/
def isStringValue : JSValue → Bool
  | .str _ => true
  | _ => false

/-- One entry of a tool schema's `properties` map: the fields the client
code reads (`type`, `default`, `minimum`, `maximum`, plus the descriptive
fields `description` and `enum` that appear in the wire schemas). -/
structure FieldSchema where
  type : Option String
  description : Option String
  default : Option JSValue
  minimum : Option Int
  maximum : Option Int
  enumVals : Option (List String)

/-- A field schema carrying only a `type`, as the OpenAI function
definitions mostly use. -/
def typeOnly (t : String) : FieldSchema :=
  ⟨some t, none, none, none, none, none⟩

/-- The `inputSchema` of an MCP tool (interface `MCPToolSpec.inputSchema`):
`{type, properties, required?}`. -/
structure ToolInputSchema where
  type : String
  properties : List (String × FieldSchema)
  required : Option (List String)

/-- One iteration of the `processArguments` loop: set the property's default
if the field is not yet provided and the schema declares one. -/
def applyDefault (processed : List (String × JSValue)) (p : String × FieldSchema) :
    List (String × JSValue) :=
  if (alookup processed p.1).isSome then processed
  else
    match p.2.default with
    | some d => processed ++ [(p.1, d)]
    | none => processed

/-- `MCPClient.processArguments` (validating client variant): copy the
argument map and, for every schema property that declares a `default` and is
absent from the map, add the default. -/
def processArguments (arguments_ : List (String × JSValue)) (schema : ToolInputSchema) :
    List (String × JSValue) :=
  schema.properties.foldl applyDefault arguments_

/-- The required-field pass of `MCPClient.validateArguments`: one
`Missing required field` message per required field absent from the map,
in schema order. -/
def requiredErrors (arguments_ : List (String × JSValue)) (schema : ToolInputSchema) :
    List String :=
  match schema.required with
  | none => []
  | some reqs =>
    (reqs.filter (fun f => (alookup arguments_ f).isNone)).map
      (fun f => "Missing required field: " ++ f)

/-- The per-argument checks of `MCPClient.validateArguments`: unknown field,
wrong type (integer/string), and range bounds for integer fields. -/
def entryErrors (properties : List (String × FieldSchema)) (p : String × JSValue) :
    List String :=
  match alookup properties p.1 with
  | none => ["Unknown field: " ++ p.1]
  | some fs =>
    let typeErrs :=
      if fs.type = some "integer" ∧ isNumber p.2 = false then
        ["Field " ++ p.1 ++ " must be a number"]
      else if fs.type = some "string" ∧ isStringValue p.2 = false then
        ["Field " ++ p.1 ++ " must be a string"]
      else []
    let rangeErrs :=
      match p.2 with
      | .num v =>
        if fs.type = some "integer" then
          (match fs.minimum with
           | some m => if v < m then ["Field " ++ p.1 ++ " must be at least " ++ toString m] else []
           | none => []) ++
          (match fs.maximum with
           | some m => if v > m then ["Field " ++ p.1 ++ " must be at most " ++ toString m] else []
           | none => [])
        else []
      | _ => []
    typeErrs ++ rangeErrs

/-- The argument-map pass of `MCPClient.validateArguments`, aggregating the
per-field errors in argument order. -/
def fieldErrors (arguments_ : List (String × JSValue)) (properties : List (String × FieldSchema)) :
    List String :=
  (arguments_.map (entryErrors properties)).flatten

/-- `MCPClient.validateArguments` (validating client variant): the aggregated
list of validation error messages (the code throws a single error joining
them when the list is non-empty). -/
def validateArguments (arguments_ : List (String × JSValue)) (schema : ToolInputSchema) :
    List String :=
  requiredErrors arguments_ schema ++ fieldErrors arguments_ schema.properties

/-- Outcome of one JSON-RPC round trip, as classified by `makeRPCRequest`:
HTTP-level failure (`!response.ok`), protocol-level failure (`data.error`),
or the `data.result` payload. -/
inductive RpcOutcome (α : Type) where
  | httpError (status : Nat) (statusText : String)
  | rpcError (code : Int) (message : String)
  | success (result : α)

/-- One tool of the `tools/list` response: `{name, description, inputSchema}`. -/
structure ToolEntry where
  name : String
  description : String
  inputSchema : ToolInputSchema

/-- The `tools/list` result payload; `tools` is optional because the code
reads it with `result.tools?.find(...)`. -/
structure ListResult where
  tools : Option (List ToolEntry)

/-- A request the client sent to the tool host transport: either the
`tools/list` discovery RPC or the `tools/call` invoke RPC. -/
inductive RpcCall where
  | listCall
  | invokeCall (name : String) (arguments : List (String × JSValue))

/-- Whether a transport request is the `tools/call` invoke RPC. -/
def RpcCall.isInvoke : RpcCall → Bool
  | .listCall => false
  | .invokeCall _ _ => true

/-- The tool host as seen through the transport: what it answers to the
`tools/list` RPC and to the `tools/call` RPC. -/
structure MCPEnv where
  listOutcome : RpcOutcome ListResult
  callOutcome : RpcOutcome JSValue

/-- Failures of the MCP client operations (the code raises `Error`s whose
messages serialize these; the constructors keep the distinguishing data). -/
inductive MCPError where
  | transport (message : String)
  | rpc (code : Int) (message : String)
  | notFound (name : String)
  | invalidArgs (toolName : String) (errors : List String)

/-- `MCPClient.getToolSpec`: issue `tools/list`, then select the named tool;
`Tool not found` when the result has no `tools` list or no entry matches.
Returns the result together with the transport requests made. -/
def getToolSpec (env : MCPEnv) (toolName : String) :
    Except MCPError ToolEntry × List RpcCall :=
  match env.listOutcome with
  | .httpError s t => (.error (.transport ("HTTP error: " ++ toString s ++ " " ++ t)), [.listCall])
  | .rpcError c m => (.error (.rpc c m), [.listCall])
  | .success r =>
    match r.tools with
    | none => (.error (.notFound toolName), [.listCall])
    | some tools =>
      match tools.find? (fun t => t.name == toolName) with
      | none => (.error (.notFound toolName), [.listCall])
      | some tool => (.ok tool, [.listCall])

/-- `MCPClient.invokeTool`: issue `tools/call` with the exact tool name and
argument object. -/
def invokeTool (env : MCPEnv) (toolName : String) (arguments_ : List (String × JSValue)) :
    Except MCPError JSValue × List RpcCall :=
  match env.callOutcome with
  | .httpError s t =>
    (.error (.transport ("HTTP error: " ++ toString s ++ " " ++ t)), [.invokeCall toolName arguments_])
  | .rpcError c m => (.error (.rpc c m), [.invokeCall toolName arguments_])
  | .success v => (.ok v, [.invokeCall toolName arguments_])

namespace ValidatingClient

/-- `MCPClient.fetchSpecAndInvoke` of the validating client variant: fetch
the spec, apply defaults, validate the merged arguments, and only then
invoke; a non-empty error list aborts before any `tools/call`. -/
def fetchSpecAndInvoke (env : MCPEnv) (toolName : String)
    (arguments_ : List (String × JSValue)) : Except MCPError JSValue × List RpcCall :=
  match getToolSpec env toolName with
  | (.error e, tr) => (.error e, tr)
  | (.ok toolSpec, tr) =>
    let processedArgs := processArguments arguments_ toolSpec.inputSchema
    let errors := validateArguments processedArgs toolSpec.inputSchema
    if errors.isEmpty then
      match invokeTool env toolName processedArgs with
      | (r, tr2) => (r, tr ++ tr2)
    else (.error (.invalidArgs toolName errors), tr)

end ValidatingClient

namespace WiredClient

/-- `MCPClient.fetchSpecAndInvoke` of `src/utils/mcp-client.ts`, the variant
the OpenAI client is wired to: fetch the spec (result discarded), then
invoke with the arguments exactly as given — no defaulting, no validation. -/
def fetchSpecAndInvoke (env : MCPEnv) (toolName : String)
    (arguments_ : List (String × JSValue)) : Except MCPError JSValue × List RpcCall :=
  match getToolSpec env toolName with
  | (.error e, tr) => (.error e, tr)
  | (.ok _, tr) =>
    match invokeTool env toolName arguments_ with
    | (r, tr2) => (r, tr ++ tr2)

end WiredClient

/-- One function definition offered to the OpenAI chat-completion API:
`{name, description, parameters}`. -/
structure FunctionDef where
  name : String
  description : String
  parameters : ToolInputSchema

/-- `OpenAIClient.getMCPFunctions`: the function definitions the client
sends with every `sendMessage` request — one wire-level function per real
tool (`list_journeys`, `get_email_reports`), transcribed field by field. -/
def getMCPFunctions : List FunctionDef :=
  [ { name := "list_journeys",
      description := "List all marketing journeys from Inflection.io. Use this to discover available journeys and get their IDs. Supports pagination and search functionality.",
      parameters :=
        { type := "object",
          properties :=
            [ ("page_size",
               ⟨some "integer",
                some "Number of journeys to return per page (default: 30, max: 100)",
                none, some 1, some 100, none⟩),
              ("page_number",
               ⟨some "integer",
                some "Page number to retrieve (default: 1)",
                none, some 1, none, none⟩),
              ("search_keyword",
               ⟨some "string",
                some "Search keyword to filter journeys by name (optional)",
                none, none, none, none⟩) ],
          required := some [] } },
    { name := "get_email_reports",
      description := "Get comprehensive email performance reports for a specific journey including aggregate stats, engagement metrics, email clients, top links, and bounce analysis.",
      parameters :=
        { type := "object",
          properties :=
            [ ("journey_id",
               ⟨some "string",
                some "The ID of the journey to get reports for (required) - get this from list_journeys first",
                none, none, none, none⟩),
              ("start_date",
               ⟨some "string",
                some "Start date for the report period (YYYY-MM-DD format, optional)",
                none, none, none, none⟩),
              ("end_date",
               ⟨some "string",
                some "End date for the report period (YYYY-MM-DD format, optional)",
                none, none, none, none⟩) ],
          required := some ["journey_id"] } } ]

/-- Modelled from the spec: the single dispatcher function the specification
(and the repository's own documentation and tests) say the chat model client
offers — `{name: "mcp_invoke", parameters: {type: "object", properties:
{tool: {type: "string", enum: [known tool names]}, arguments: {type:
"object"}}, required: ["tool"]}}`. No code under `src/` defines it; it is
stated here only to compare against `getMCPFunctions`. -/
def mcpInvokeDispatcher : FunctionDef :=
  { name := "mcp_invoke",
    description := "Invoke an MCP server tool by name; client will fetch the tool spec and perform the call.",
    parameters :=
      { type := "object",
        properties :=
          [ ("tool", ⟨some "string", none, none, none, none,
                      some ["list_journeys", "get_email_reports"]⟩),
            ("arguments", ⟨some "object", some "Key/value args for the given tool",
                           none, none, none, none⟩) ],
        required := some ["tool"] } }

/-- The fixed tool catalog `handleFunctionCall` accepts
(`const supportedTools = [...]`). -/
def supportedTools : List String := ["list_journeys", "get_email_reports"]

/-- Failures of `OpenAIClient.handleFunctionCall`: the model payload did not
parse, the named tool is outside the catalog, or the MCP client failed. -/
inductive HandleError where
  | parseError
  | unsupportedTool (name : String)
  | mcp (e : MCPError)

/-- `OpenAIClient.handleFunctionCall`: parse the raw arguments (given here as
the parse outcome, `none` for a malformed payload), reject tool names outside
`supportedTools`, and otherwise delegate to the wired client's
`fetchSpecAndInvoke`. Returns the result with the transport requests made. -/
def handleFunctionCall (env : MCPEnv) (toolName : String)
    (parsedArguments : Option (List (String × JSValue))) :
    Except HandleError JSValue × List RpcCall :=
  match parsedArguments with
  | none => (.error .parseError, [])
  | some args =>
    if supportedTools.contains toolName then
      match WiredClient.fetchSpecAndInvoke env toolName args with
      | (.ok v, tr) => (.ok v, tr)
      | (.error e, tr) => (.error (.mcp e), tr)
    else (.error (.unsupportedTool toolName), [])

/-- Escaping of one character inside a JSON string literal, as
`JSON.stringify` renders it. -/
def escapeChar (c : Char) : String :=
  if c = '"' then "\\\""
  else if c = '\\' then "\\\\"
  else if c = '\n' then "\\n"
  else if c = '\t' then "\\t"
  else String.singleton c

/-- Escaping of a whole string for a JSON string literal. -/
def escapeString (s : String) : String :=
  String.join (s.toList.map escapeChar)

mutual

/-- `JSON.stringify`, the fallback rendering of a tool result. -/
def stringifyJSON : JSValue → String
  | .null => "null"
  | .bool b => cond b "true" "false"
  | .num n => toString n
  | .str s => "\"" ++ escapeString s ++ "\""
  | .arr l => "[" ++ stringifyList l ++ "]"
  | .obj fs => "\x7b" ++ stringifyFields fs ++ "\x7d"

/-- Comma-joined `JSON.stringify` of array elements. -/
def stringifyList : List JSValue → String
  | [] => ""
  | [v] => stringifyJSON v
  | v :: w :: rest => stringifyJSON v ++ "," ++ stringifyList (w :: rest)

/-- Comma-joined `JSON.stringify` of object fields. -/
def stringifyFields : List (String × JSValue) → String
  | [] => ""
  | [p] => "\"" ++ escapeString p.1 ++ "\":" ++ stringifyJSON p.2
  | p :: q :: rest =>
    "\"" ++ escapeString p.1 ++ "\":" ++ stringifyJSON p.2 ++ "," ++ stringifyFields (q :: rest)

end

mutual

/-- JS `String(v)` as `Array.prototype.join` applies it to an element
(`null` and `undefined` join as the empty string at the top level). -/
def displayElem : JSValue → String
  | .null => ""
  | .bool b => cond b "true" "false"
  | .num n => toString n
  | .str s => s
  | .arr l => displayList l
  | .obj _ => "[object Object]"

/-- JS `Array.prototype.toString`: elements joined with commas. -/
def displayList : List JSValue → String
  | [] => ""
  | [v] => displayElem v
  | v :: w :: rest => displayElem v ++ "," ++ displayList (w :: rest)

end

/-- The value a JS expression read as `item.text` contributes to
`[...].join("\n")`: `undefined` (field absent) joins as the empty string. -/
def joinPiece : Option JSValue → String
  | none => ""
  | some v => displayElem v

/-- JS `Array.prototype.join(sep)` on a list of strings. -/
def joinWith (sep : String) : List String → String
  | [] => ""
  | [s] => s
  | s :: t :: rest => s ++ sep ++ joinWith sep (t :: rest)

/-- JS truthiness of a value, as the guard `toolResult && toolResult.content`
uses it. -/
def truthy : JSValue → Bool
  | .null => false
  | .bool b => b
  | .num n => n != 0
  | .str s => s ≠ ""
  | .arr _ => true
  | .obj _ => true

/-- JS member access `v.k`: `none` models `undefined`. -/
def getField : JSValue → String → Option JSValue
  | .obj fields, k => alookup fields k
  | _, _ => none

/-- The filter `item.type === "text"` of the extraction code. -/
def isTextBlock (item : JSValue) : Bool :=
  match getField item "type" with
  | some (.str t) => t = "text"
  | _ => false

/-- The tool-result extraction of `useChat.sendMessage`: when the result is
truthy and carries an array `content`, the text-typed blocks' `text` fields
joined by newline; otherwise `JSON.stringify` of the whole result. -/
def extractContent (toolResult : JSValue) : String :=
  if truthy toolResult then
    match getField toolResult "content" with
    | some (.arr blocks) =>
      joinWith "\n" ((blocks.filter isTextBlock).map (fun item => joinPiece (getField item "text")))
    | _ => stringifyJSON toolResult
  else stringifyJSON toolResult

/-- A content block `{type: "text", text: s}`. -/
def mkTextBlock (s : String) : JSValue :=
  .obj [("type", .str "text"), ("text", .str s)]

/-- The guard of the extraction code: `toolResult && toolResult.content &&
Array.isArray(toolResult.content)`. -/
def extractionGuard (r : JSValue) : Bool :=
  truthy r &&
    match getField r "content" with
    | some (.arr _) => true
    | _ => false

/-- Sender of a display message (`Message.sender`). -/
inductive Sender where
  | user
  | bot
deriving DecidableEq

/-- Role of a model-facing history entry (`ChatMessage.role`). -/
inductive Role where
  | user
  | assistant
  | function
deriving DecidableEq

/-- A display message of the chat UI (`Message` of `useChat`): id, content,
sender, timestamp, the pending flag `isLoading` and the optional error
detail. -/
structure Message where
  id : String
  content : String
  sender : Sender
  timestamp : Nat
  isLoading : Bool
  error : Option String
deriving DecidableEq

/-- A model-facing history entry (`ChatMessage` of `openai-client.ts`):
role, content and the function name carried by `function` entries. -/
structure ChatMessage where
  role : Role
  content : String
  name : Option String
deriving DecidableEq

/-- The state `useChat` owns: the display message list, the busy flag and
the model-facing conversation history. -/
structure ChatState where
  messages : List Message
  isLoading : Bool
  openaiHistory : List ChatMessage
deriving DecidableEq

/-- The `function_call` payload the model may return: a function name and
the raw (still encoded) arguments string. -/
structure FunctionCallData where
  name : String
  arguments : String
deriving DecidableEq

/-- Outcome of `openaiClient.sendMessage`: a thrown error, or a response
with nullable `content` and optional `function_call`. -/
inductive SendOutcome where
  | failure (message : String)
  | reply (content : Option String) (functionCall : Option FunctionCallData)
deriving DecidableEq

/-- Outcome of `openaiClient.handleFunctionCall` as `useChat` sees it:
a thrown error or the raw tool result. -/
inductive ToolOutcome where
  | failure (message : String)
  | success (toolResult : JSValue)

/-- Outcome of `openaiClient.sendFollowUpMessage`: a thrown error or the
final answer text. -/
inductive FollowUpOutcome where
  | failure (message : String)
  | success (text : String)
deriving DecidableEq

/-- The environment of one `useChat.sendMessage` turn: the clock and the
three network interactions the turn may perform. -/
structure ChatEnv where
  now : Nat
  sendOutcome : SendOutcome
  toolOutcome : ToolOutcome
  followUpOutcome : FollowUpOutcome

/-- Which remote service a network call of the turn addressed. -/
inductive NetCall where
  | chatCompletion
  | toolInvocation
  | followUpCompletion
deriving DecidableEq

/-- Observable steps of one turn, in order: display-list appends, busy-flag
writes, network calls, and by-id display-message updates. -/
inductive Event where
  | appendMessage (m : Message)
  | setLoading (b : Bool)
  | net (c : NetCall)
  | updateMessage (id : String)
deriving DecidableEq

/-- JS `String.prototype.trim`: strip leading and trailing whitespace
(structurally recursive, so that concrete inputs evaluate). -/
def jsTrim (s : String) : String :=
  String.mk (((s.data.dropWhile Char.isWhitespace).reverse.dropWhile Char.isWhitespace).reverse)

/-- JS `x || d` on a nullable string: the fallback replaces both `null` and
the empty string. -/
def jsOrElse (s : Option String) (d : String) : String :=
  match s with
  | some t => if t = "" then d else t
  | none => d

/-- `useChat.sendMessage` (the `openaiHistory`-tracking variant): one full
turn as a pure transition on `ChatState`, returning the new state and the
ordered events of the turn. Mirrors the source: blank-input guard, user
append, busy flag, model call, then either the plain-answer path, or the
tool path with its inner error handling, with `setIsLoading(false)` in
`finally`. -/
def sendMessageChat (env : ChatEnv) (content : String) (st : ChatState) :
    ChatState × List Event :=
  if jsTrim content = "" then (st, [])
  else
    let userMessage : Message := ⟨toString env.now, content, .user, env.now, false, none⟩
    let messages1 := st.messages ++ [userMessage]
    let ev0 : List Event := [.appendMessage userMessage, .setLoading true]
    let updatedHistory := st.openaiHistory ++ [⟨.user, content, none⟩]
    match env.sendOutcome with
    | .failure m =>
      let errorMessage : Message :=
        ⟨toString (env.now + 1), "Sorry, I encountered an error: " ++ m, .bot, env.now, false, some m⟩
      (⟨messages1 ++ [errorMessage], false, updatedHistory⟩,
       ev0 ++ [.net .chatCompletion, .appendMessage errorMessage, .setLoading false])
    | .reply rcontent fc? =>
      match fc? with
      | none =>
        let botMessage : Message :=
          ⟨toString (env.now + 1), jsOrElse rcontent "I apologize, but I couldn't generate a response.",
           .bot, env.now, false, none⟩
        (⟨messages1 ++ [botMessage], false, updatedHistory ++ [⟨.assistant, jsOrElse rcontent "", none⟩]⟩,
         ev0 ++ [.net .chatCompletion, .appendMessage botMessage, .setLoading false])
      | some fc =>
        let assistantMessage : Message :=
          ⟨toString (env.now + 1), jsOrElse rcontent "I'm processing your request...",
           .bot, env.now, true, none⟩
        let messages2 := messages1 ++ [assistantMessage]
        let ev1 := ev0 ++ [.net .chatCompletion, .appendMessage assistantMessage, .net .toolInvocation]
        match env.toolOutcome with
        | .failure m =>
          let errorMessage : Message :=
            ⟨toString (env.now + 2),
             "Sorry, I encountered an error while processing your request: " ++ m,
             .bot, env.now, false, some m⟩
          (⟨messages2 ++ [errorMessage], false, updatedHistory⟩,
           ev1 ++ [.appendMessage errorMessage, .setLoading false])
        | .success toolResult =>
          let toolName := fc.name
          let functionContent := extractContent toolResult
          let historyWithFunction :=
            updatedHistory ++
              [⟨.assistant, jsOrElse rcontent "", none⟩, ⟨.function, functionContent, some toolName⟩]
          match env.followUpOutcome with
          | .failure m =>
            let errorMessage : Message :=
              ⟨toString (env.now + 2),
               "Sorry, I encountered an error while processing your request: " ++ m,
               .bot, env.now, false, some m⟩
            (⟨messages2 ++ [errorMessage], false, historyWithFunction⟩,
             ev1 ++ [.net .followUpCompletion, .appendMessage errorMessage, .setLoading false])
          | .success finalResponse =>
            let finalMessages := messages2.map
              (fun msg =>
                if msg.id = assistantMessage.id then
                  { msg with content := finalResponse, isLoading := false }
                else msg)
            (⟨finalMessages, false, historyWithFunction ++ [⟨.assistant, finalResponse, none⟩]⟩,
             ev1 ++ [.net .followUpCompletion, .updateMessage assistantMessage.id, .setLoading false])

/-- Whether the turn's environment makes the turn fail: the model call
throws, the tool invocation throws, or the follow-up call throws. -/
def turnFails (env : ChatEnv) : Bool :=
  match env.sendOutcome with
  | .failure _ => true
  | .reply _ none => false
  | .reply _ (some _) =>
    match env.toolOutcome with
    | .failure _ => true
    | .success _ =>
      match env.followUpOutcome with
      | .failure _ => true
      | .success _ => false

/-- Whether every network call in the trace happens while the busy flag,
starting from the given value, is set. -/
def loadingCoversNet : Bool → List Event → Bool
  | _, [] => true
  | _, .setLoading b :: rest => loadingCoversNet b rest
  | flag, .net _ :: rest => flag && loadingCoversNet flag rest
  | flag, _ :: rest => loadingCoversNet flag rest

/-- The tool host's declared schema for `get_email_reports`: `journey_id`
is required and no property declares a default. -/
def reportSchema : ToolInputSchema :=
  ⟨"object",
   [("journey_id", typeOnly "string"),
    ("start_date", typeOnly "string"),
    ("end_date", typeOnly "string")],
   some ["journey_id"]⟩

/-- A `tools/list` catalog entry for `get_email_reports`. -/
def reportsEntry : ToolEntry :=
  ⟨"get_email_reports", "Email performance reports", reportSchema⟩

/-- A tool host that lists `get_email_reports` and answers every invoke. -/
def envWired : MCPEnv :=
  ⟨.success ⟨some [reportsEntry]⟩, .success (.str "report data")⟩

/-- A turn environment in which the model requests a tool call and the tool
invocation fails with a transport error. -/
def envTransportFail : ChatEnv :=
  ⟨100,
   .reply none (some ⟨"list_journeys", "\x7b\x7d"⟩),
   .failure "TransportError: fetch failed",
   .success "unused"⟩

/-- A turn environment for the happy tool path: the model requests
`list_journeys`, the host returns two text blocks, the follow-up answers. -/
def envRoundTrip : ChatEnv :=
  ⟨200,
   .reply (some "Let me check") (some ⟨"list_journeys", "\x7b\x7d"⟩),
   .success (.obj [("content", .arr [mkTextBlock "A", mkTextBlock "B"])]),
   .success "Here are your journeys: A and B"⟩

/-- Lookup in a concatenation hits the left list first. -/
theorem alookup_append_of_some {β : Type} (l₁ l₂ : List (String × β)) (k : String) (v : β)
    (h : alookup l₁ k = some v) : alookup (l₁ ++ l₂) k = some v := by
  induction l₁ with
  | nil => simp [alookup] at h
  | cons p rest ih =>
    by_cases hk : p.1 = k
    · simpa [alookup, hk] using by simpa [alookup, hk] using h
    · simp [alookup, hk] at h ⊢
      exact ih h

/-- Lookup in a concatenation falls through to the right list. -/
theorem alookup_append_of_none {β : Type} (l₁ l₂ : List (String × β)) (k : String)
    (h : alookup l₁ k = none) : alookup (l₁ ++ l₂) k = alookup l₂ k := by
  induction l₁ with
  | nil => simp [alookup]
  | cons p rest ih =>
    by_cases hk : p.1 = k
    · simp [alookup, hk] at h
    · simp [alookup, hk] at h ⊢
      exact ih h

/-- `applyDefault` never changes an existing binding. -/
theorem alookup_applyDefault_of_some (m : List (String × JSValue)) (p : String × FieldSchema)
    (k : String) (v : JSValue) (h : alookup m k = some v) :
    alookup (applyDefault m p) k = some v := by
  unfold applyDefault
  split
  · exact h
  · match hd : p.2.default with
    | some d => exact alookup_append_of_some m [(p.1, d)] k v h
    | none => exact h

/-- `applyDefault` changes the lookup of no other key. -/
theorem alookup_applyDefault_of_ne (m : List (String × JSValue)) (p : String × FieldSchema)
    (k : String) (hk : p.1 ≠ k) : alookup (applyDefault m p) k = alookup m k := by
  unfold applyDefault
  split
  · rfl
  · match hd : p.2.default with
    | some d =>
      rcases hm : alookup m k with _ | v
      · rw [alookup_append_of_none m [(p.1, d)] k hm]
        simp [alookup, hk]
      · exact alookup_append_of_some m [(p.1, d)] k v hm
    | none => rfl

/-- Defaulting with no default declared for the property is the identity. -/
theorem applyDefault_of_default_none (m : List (String × JSValue)) (p : String × FieldSchema)
    (h : p.2.default = none) : applyDefault m p = m := by
  unfold applyDefault
  split
  · rfl
  · rw [h]

/-- The defaulting fold never changes an existing binding. -/
theorem alookup_foldl_applyDefault_of_some (props : List (String × FieldSchema))
    (m : List (String × JSValue)) (k : String) (v : JSValue) (h : alookup m k = some v) :
    alookup (props.foldl applyDefault m) k = some v := by
  induction props generalizing m with
  | nil => simpa using h
  | cons p rest ih =>
    simp only [List.foldl_cons]
    exact ih (applyDefault m p) (alookup_applyDefault_of_some m p k v h)

/-- If no property entry for key `k` declares a default, the defaulting fold
leaves the lookup of `k` unchanged. -/
theorem alookup_foldl_applyDefault_of_no_default (props : List (String × FieldSchema))
    (m : List (String × JSValue)) (k : String)
    (h : ∀ p ∈ props, p.1 = k → p.2.default = none) :
    alookup (props.foldl applyDefault m) k = alookup m k := by
  induction props generalizing m with
  | nil => simp
  | cons p rest ih =>
    simp only [List.foldl_cons]
    have hrest : ∀ q ∈ rest, q.1 = k → q.2.default = none :=
      fun q hq => h q (List.mem_cons_of_mem p hq)
    by_cases hk : p.1 = k
    · rw [ih (applyDefault m p) hrest, applyDefault_of_default_none m p (h p (List.mem_cons_self p rest) hk)]
    · rw [ih (applyDefault m p) hrest, alookup_applyDefault_of_ne m p k hk]

/-- After `applyDefault` for a property with a default, its key is bound. -/
theorem alookup_applyDefault_self_isSome (m : List (String × JSValue))
    (p : String × FieldSchema) (h : p.2.default.isSome = true) :
    (alookup (applyDefault m p) p.1).isSome = true := by
  unfold applyDefault
  split
  · assumption
  · rcases hd : p.2.default with _ | d
    · rw [hd] at h; simp at h
    · rename_i hnot
      have hm : alookup m p.1 = none := by
        rcases hmm : alookup m p.1 with _ | w
        · rfl
        · rw [hmm] at hnot; simp at hnot
      rw [alookup_append_of_none m [(p.1, d)] p.1 hm]
      simp [alookup]

/-- After the defaulting fold, every property with a declared default has
its key bound. -/
theorem alookup_foldl_applyDefault_defaulted_isSome (props : List (String × FieldSchema))
    (m : List (String × JSValue)) (p : String × FieldSchema) (hp : p ∈ props)
    (hd : p.2.default.isSome = true) :
    (alookup (props.foldl applyDefault m) p.1).isSome = true := by
  induction props generalizing m with
  | nil => cases hp
  | cons q rest ih =>
    simp only [List.foldl_cons]
    rcases List.mem_cons.mp hp with hq | hq
    · subst hq
      have h1 := alookup_applyDefault_self_isSome m p hd
      rcases hs : alookup (applyDefault m p) p.1 with _ | v
      · rw [hs] at h1; simp at h1
      · rw [alookup_foldl_applyDefault_of_some rest (applyDefault m p) p.1 v hs]
        rfl
    · exact ih (applyDefault m q) hq

/-- If every property with a default already has its key bound, the
defaulting fold is the identity. -/
theorem foldl_applyDefault_of_all_bound (props : List (String × FieldSchema))
    (m : List (String × JSValue))
    (h : ∀ p ∈ props, p.2.default.isSome = true → (alookup m p.1).isSome = true) :
    props.foldl applyDefault m = m := by
  induction props generalizing m with
  | nil => rfl
  | cons p rest ih =>
    simp only [List.foldl_cons]
    have hstep : applyDefault m p = m := by
      unfold applyDefault
      split
      · rfl
      · rcases hd : p.2.default with _ | d
        · rfl
        · rename_i hnot
          have := h p (List.mem_cons_self p rest) (by rw [hd]; rfl)
          rcases hmm : alookup m p.1 with _ | w
          · rw [hmm] at this; simp at this
          · rw [hmm] at hnot; simp at hnot
    rw [hstep]
    exact ih m (fun q hq => h q (List.mem_cons_of_mem p hq))

/-- A schema with defaults, as the tool host declares for `list_journeys`
(`page_size` default 30, `page_number` default 1). -/
def defaultingSchema : ToolInputSchema :=
  ⟨"object",
   [("page_size", ⟨some "integer", none, some (.num 30), some 1, some 100, none⟩),
    ("page_number", ⟨some "integer", none, some (.num 1), some 1, none, none⟩),
    ("search_keyword", typeOnly "string")],
   some []⟩

/-- C8: applying schema defaults never clobbers caller-supplied values —
every field already present in the argument map keeps its explicit value —
and defaulting is idempotent: defaulting twice equals defaulting once. -/
theorem processArguments_preserves_and_idempotent :
    (∀ (args : List (String × JSValue)) (schema : ToolInputSchema) (k : String) (v : JSValue),
       alookup args k = some v → alookup (processArguments args schema) k = some v) ∧
    (∀ (args : List (String × JSValue)) (schema : ToolInputSchema),
       processArguments (processArguments args schema) schema = processArguments args schema) := by
  constructor
  · intro args schema k v h
    exact alookup_foldl_applyDefault_of_some schema.properties args k v h
  · intro args schema
    unfold processArguments
    apply foldl_applyDefault_of_all_bound
    intro p hp hd
    exact alookup_foldl_applyDefault_defaulted_isSome schema.properties args p hp hd

/-- Witness for C8: a `page_size` given explicitly as 5 survives defaulting
against the `list_journeys` schema, and a second defaulting pass is a
no-op. -/
theorem processArguments_preserves_witness :
    alookup (processArguments [("page_size", .num 5)] defaultingSchema) "page_size"
      = some (.num 5) ∧
    processArguments (processArguments [("page_size", .num 5)] defaultingSchema) defaultingSchema
      = processArguments [("page_size", .num 5)] defaultingSchema :=
  ⟨processArguments_preserves_and_idempotent.1 [("page_size", .num 5)] defaultingSchema
     "page_size" (.num 5) rfl,
   processArguments_preserves_and_idempotent.2 [("page_size", .num 5)] defaultingSchema⟩

/-- C1 (amended): in the validating client variant, for every argument map
missing a schema-required field for which no property declares a default,
`fetchSpecAndInvoke` fails with the validation error listing that field and
the `tools/call` RPC is never issued. -/
theorem missing_required_field_rejected_before_invoke
    (env : MCPEnv) (toolName : String) (args : List (String × JSValue))
    (tools : List ToolEntry) (entry : ToolEntry) (reqs : List String) (f : String)
    (hlist : env.listOutcome = .success ⟨some tools⟩)
    (hfind : tools.find? (fun t => t.name == toolName) = some entry)
    (hreq : entry.inputSchema.required = some reqs)
    (hf : f ∈ reqs)
    (habsent : alookup args f = none)
    (hnodef : ∀ p ∈ entry.inputSchema.properties, p.1 = f → p.2.default = none) :
    ∃ errors,
      ValidatingClient.fetchSpecAndInvoke env toolName args
        = (.error (.invalidArgs toolName errors), [.listCall]) ∧
      ("Missing required field: " ++ f) ∈ errors ∧
      (ValidatingClient.fetchSpecAndInvoke env toolName args).2.all
        (fun c => !c.isInvoke) = true := by
  have hspec : getToolSpec env toolName = (.ok entry, [.listCall]) := by
    unfold getToolSpec
    rw [hlist]
    simp [hfind]
  have hmiss : alookup (processArguments args entry.inputSchema) f = none := by
    unfold processArguments
    rw [alookup_foldl_applyDefault_of_no_default entry.inputSchema.properties args f hnodef,
        habsent]
  have hmem : ("Missing required field: " ++ f)
      ∈ validateArguments (processArguments args entry.inputSchema) entry.inputSchema := by
    unfold validateArguments
    apply List.mem_append_left
    unfold requiredErrors
    rw [hreq]
    exact List.mem_map.mpr ⟨f, List.mem_filter.mpr ⟨hf, by simp [hmiss]⟩, rfl⟩
  have hne : (validateArguments (processArguments args entry.inputSchema)
      entry.inputSchema).isEmpty = false := by
    rcases hv : validateArguments (processArguments args entry.inputSchema) entry.inputSchema
      with _ | ⟨a, l⟩
    · rw [hv] at hmem
      cases hmem
    · rfl
  have heq : ValidatingClient.fetchSpecAndInvoke env toolName args
      = (.error (.invalidArgs toolName
          (validateArguments (processArguments args entry.inputSchema) entry.inputSchema)),
         [.listCall]) := by
    unfold ValidatingClient.fetchSpecAndInvoke
    rw [hspec]
    simp [hne]
  exact ⟨_, heq, hmem, by rw [heq]; rfl⟩

/-- Witness for C1 (amended): `get_email_reports` with an empty argument map
is rejected with `Missing required field: journey_id` and only the
`tools/list` RPC is ever issued. -/
theorem missing_required_field_witness :
    ∃ errors,
      ValidatingClient.fetchSpecAndInvoke envWired "get_email_reports" []
        = (.error (.invalidArgs "get_email_reports" errors), [.listCall]) ∧
      ("Missing required field: " ++ "journey_id") ∈ errors ∧
      (ValidatingClient.fetchSpecAndInvoke envWired "get_email_reports" []).2.all
        (fun c => !c.isInvoke) = true :=
  missing_required_field_rejected_before_invoke envWired "get_email_reports" [] [reportsEntry]
    reportsEntry ["journey_id"] "journey_id" rfl rfl rfl (by simp) rfl
    (by
      intro p hp hpf
      simp [reportsEntry, reportSchema, typeOnly] at hp
      rcases hp with h | h | h <;> subst h <;> rfl)

/-- C1 counterexample: the wired client variant (the one `handleFunctionCall`
invokes through) performs no validation at all — with an empty argument map
for `get_email_reports`, whose schema requires `journey_id`, the call
succeeds and the `tools/call` RPC is issued. -/
theorem wired_fetchSpecAndInvoke_skips_validation :
    WiredClient.fetchSpecAndInvoke envWired "get_email_reports" []
      = (.ok (.str "report data"), [.listCall, .invokeCall "get_email_reports" []]) ∧
    (WiredClient.fetchSpecAndInvoke envWired "get_email_reports" []).2.any
      RpcCall.isInvoke = true :=
  ⟨rfl, rfl⟩

/-- C2: the function list the chat model client offers with every
`sendMessage` request is two wire-level functions, `list_journeys` and
`get_email_reports` — it is not the single `mcp_invoke` dispatcher that the
spec and the repository's own documentation and tests describe. -/
theorem getMCPFunctions_not_single_dispatcher :
    getMCPFunctions.map FunctionDef.name = ["list_journeys", "get_email_reports"] ∧
    getMCPFunctions.map FunctionDef.name ≠ [mcpInvokeDispatcher.name] ∧
    getMCPFunctions.all (fun f => f.name != "mcp_invoke") = true :=
  ⟨rfl, by decide, by decide⟩

/-- C3: for every tool name outside the known catalog, `handleFunctionCall`
fails without issuing any RPC to the tool host, and — whenever the argument
payload parses — the failure is the unsupported-tool (not-found) error. -/
theorem unknown_tool_fails_before_transport
    (env : MCPEnv) (toolName : String) (pargs : Option (List (String × JSValue)))
    (h : supportedTools.contains toolName = false) :
    (∃ e, (handleFunctionCall env toolName pargs).1 = .error e) ∧
    (handleFunctionCall env toolName pargs).2 = [] ∧
    (∀ args, pargs = some args →
      (handleFunctionCall env toolName pargs).1 = .error (.unsupportedTool toolName)) := by
  rcases pargs with _ | args
  · exact ⟨⟨.parseError, rfl⟩, rfl, fun args h' => by cases h'⟩
  · have hgoal : handleFunctionCall env toolName (some args)
        = (.error (.unsupportedTool toolName), []) := by
      unfold handleFunctionCall
      rw [h]
      simp
    exact ⟨⟨.unsupportedTool toolName, by rw [hgoal]⟩, by rw [hgoal],
      fun args' h' => by rw [hgoal]⟩

/-- Witness for C3: the unknown tool name `delete_journeys` is rejected with
the unsupported-tool error and the transport trace is empty. -/
theorem unknown_tool_witness :
    (∃ e, (handleFunctionCall envWired "delete_journeys" (some [])).1 = .error e) ∧
    (handleFunctionCall envWired "delete_journeys" (some [])).2 = [] ∧
    (∀ args, (some [] : Option (List (String × JSValue))) = some args →
      (handleFunctionCall envWired "delete_journeys" (some [])).1
        = .error (.unsupportedTool "delete_journeys")) :=
  unknown_tool_fails_before_transport envWired "delete_journeys" (some []) (by decide)

/-- C10: submitting a message whose trimmed form is empty is a complete
no-op — no display message, no history entry, no busy flag, no network
call, no event at all. -/
theorem blank_input_is_noop (env : ChatEnv) (content : String) (st : ChatState)
    (h : jsTrim content = "") : sendMessageChat env content st = (st, []) := by
  unfold sendMessageChat
  rw [h]
  simp

/-- Witness for C10: a whitespace-only submission leaves the state untouched
and produces no events. -/
theorem blank_input_witness :
    sendMessageChat envTransportFail "   " ⟨[], false, []⟩ = (⟨[], false, []⟩, []) :=
  blank_input_is_noop envTransportFail "   " ⟨[], false, []⟩ (by decide)

/-- C5: the conversation history is append-only — after any turn, completed
or failed, the new history is the old history plus a (possibly empty) list
of entries appended at the end. -/
theorem history_append_only (env : ChatEnv) (content : String) (st : ChatState) :
    ∃ tail, (sendMessageChat env content st).1.openaiHistory = st.openaiHistory ++ tail := by
  by_cases h : jsTrim content = ""
  · refine ⟨[], ?_⟩
    unfold sendMessageChat
    rw [h]
    simp
  · obtain ⟨now, sOut, tOut, fOut⟩ := env
    cases sOut with
    | failure m => exact ⟨[⟨.user, content, none⟩], by simp [sendMessageChat, h]⟩
    | reply c fc? =>
      cases fc? with
      | none =>
        exact ⟨[⟨.user, content, none⟩, ⟨.assistant, jsOrElse c "", none⟩],
          by simp [sendMessageChat, h]⟩
      | some fc =>
        cases tOut with
        | failure m => exact ⟨[⟨.user, content, none⟩], by simp [sendMessageChat, h]⟩
        | success tr =>
          cases fOut with
          | failure m =>
            exact ⟨[⟨.user, content, none⟩, ⟨.assistant, jsOrElse c "", none⟩,
                    ⟨.function, extractContent tr, some fc.name⟩],
              by simp [sendMessageChat, h]⟩
          | success txt =>
            exact ⟨[⟨.user, content, none⟩, ⟨.assistant, jsOrElse c "", none⟩,
                    ⟨.function, extractContent tr, some fc.name⟩, ⟨.assistant, txt, none⟩],
              by simp [sendMessageChat, h]⟩

/-- C9: for every turn that passes the empty-input guard, the busy flag is
set before any network call (every network call happens while it is set)
and it is false once the turn finishes, on success and on every error path
alike. -/
theorem busy_flag_covers_turn (env : ChatEnv) (content : String) (st : ChatState)
    (h : ¬ jsTrim content = "") :
    (sendMessageChat env content st).1.isLoading = false ∧
    loadingCoversNet false (sendMessageChat env content st).2 = true := by
  obtain ⟨now, sOut, tOut, fOut⟩ := env
  cases sOut with
  | failure m => constructor <;> simp [sendMessageChat, h, loadingCoversNet]
  | reply c fc? =>
    cases fc? with
    | none => constructor <;> simp [sendMessageChat, h, loadingCoversNet]
    | some fc =>
      cases tOut with
      | failure m => constructor <;> simp [sendMessageChat, h, loadingCoversNet]
      | success tr =>
        cases fOut with
        | failure m => constructor <;> simp [sendMessageChat, h, loadingCoversNet]
        | success txt => constructor <;> simp [sendMessageChat, h, loadingCoversNet]

/-- Witness for C9: on the happy tool path the turn ends with the busy flag
cleared and every network call covered by the flag. -/
theorem busy_flag_witness :
    (sendMessageChat envRoundTrip "list journeys" ⟨[], false, []⟩).1.isLoading = false ∧
    loadingCoversNet false (sendMessageChat envRoundTrip "list journeys" ⟨[], false, []⟩).2
      = true :=
  busy_flag_covers_turn envRoundTrip "list journeys" ⟨[], false, []⟩ (by decide)

/-- C4 counterexample: with the tool invocation failing on a transport
error, the conversation history after the turn holds only the appended user
entry — the assistant tool-request entry the claim promises is never
appended (the code only appends it together with the function result, on
success). -/
theorem transport_failure_history_counterexample :
    (sendMessageChat envTransportFail "list my journeys" ⟨[], false, []⟩).1.openaiHistory
      = [⟨Role.user, "list my journeys", none⟩] ∧
    ((sendMessageChat envTransportFail "list my journeys" ⟨[], false, []⟩).1.openaiHistory.all
      (fun e => e.role != Role.assistant)) = true :=
  ⟨rfl, rfl⟩

/-- C4 (amended): when the tool invocation step fails, the turn ends errored
— an error display message is appended while the pending message stays — and
the conversation history afterwards contains the appended user entry but
neither an assistant tool-request entry nor a tool-result entry. -/
theorem tool_failure_appends_only_user_entry
    (env : ChatEnv) (content : String) (st : ChatState)
    (h : ¬ jsTrim content = "") (c : Option String) (fc : FunctionCallData) (m : String)
    (hs : env.sendOutcome = .reply c (some fc)) (ht : env.toolOutcome = .failure m) :
    (sendMessageChat env content st).1.openaiHistory
      = st.openaiHistory ++ [⟨.user, content, none⟩] ∧
    ∃ u p e, (sendMessageChat env content st).1.messages = st.messages ++ [u, p, e] ∧
      p.isLoading = true ∧ e.error = some m := by
  obtain ⟨now, sOut, tOut, fOut⟩ := env
  dsimp only at hs ht
  subst hs
  subst ht
  refine ⟨by simp [sendMessageChat, h], ?_⟩
  refine ⟨⟨toString now, content, .user, now, false, none⟩,
          ⟨toString (now + 1), jsOrElse c "I'm processing your request...", .bot, now, true, none⟩,
          ⟨toString (now + 2),
           "Sorry, I encountered an error while processing your request: " ++ m,
           .bot, now, false, some m⟩,
          by simp [sendMessageChat, h], rfl, rfl⟩

/-- Witness for C4 (amended): the transport-failure scenario leaves exactly
the user entry in history and an errored turn on the display list. -/
theorem tool_failure_appends_witness :
    (sendMessageChat envTransportFail "retry the report" ⟨[], false, []⟩).1.openaiHistory
      = ([] : List ChatMessage) ++ [⟨.user, "retry the report", none⟩] ∧
    ∃ u p e, (sendMessageChat envTransportFail "retry the report" ⟨[], false, []⟩).1.messages
        = ([] : List Message) ++ [u, p, e] ∧
      p.isLoading = true ∧ e.error = some "TransportError: fetch failed" :=
  tool_failure_appends_only_user_entry envTransportFail "retry the report" ⟨[], false, []⟩
    (by decide) none ⟨"list_journeys", "\x7b\x7d"⟩ "TransportError: fetch failed" rfl rfl

/-- C7 counterexample: after the tool invocation fails, the pending display
message (id "101") is NOT marked errored — it keeps `isLoading = true` and
carries no error detail; the error surfaces as a separately appended
message, so the turn's display list has three entries. -/
theorem pending_message_not_marked_errored :
    (((sendMessageChat envTransportFail "show stats" ⟨[], false, []⟩).1.messages.filter
        (fun m => m.id == "101")).map (fun m => (m.isLoading, m.error)))
      = [(true, none)] ∧
    (sendMessageChat envTransportFail "show stats" ⟨[], false, []⟩).1.messages.length = 3 :=
  ⟨rfl, rfl⟩

/-- C7 (amended): every recoverable error of a turn is caught at the turn
boundary — the turn always completes with the busy flag cleared and the
error surfaced as a newly appended bot display message carrying the error
detail (the pending display message, when one exists, is left in its
loading state rather than being marked errored). -/
theorem errors_caught_at_turn_boundary (env : ChatEnv) (content : String) (st : ChatState)
    (h : ¬ jsTrim content = "") (hf : turnFails env = true) :
    (sendMessageChat env content st).1.isLoading = false ∧
    ∃ ms emsg, (sendMessageChat env content st).1.messages = st.messages ++ ms ++ [emsg] ∧
      emsg.sender = .bot ∧ emsg.error.isSome = true := by
  obtain ⟨now, sOut, tOut, fOut⟩ := env
  cases sOut with
  | failure m =>
    refine ⟨by simp [sendMessageChat, h],
            [⟨toString now, content, .user, now, false, none⟩],
            ⟨toString (now + 1), "Sorry, I encountered an error: " ++ m, .bot, now, false, some m⟩,
            by simp [sendMessageChat, h], rfl, rfl⟩
  | reply c fc? =>
    cases fc? with
    | none => simp [turnFails] at hf
    | some fc =>
      cases tOut with
      | failure m =>
        refine ⟨by simp [sendMessageChat, h],
                [⟨toString now, content, .user, now, false, none⟩,
                 ⟨toString (now + 1), jsOrElse c "I'm processing your request...",
                  .bot, now, true, none⟩],
                ⟨toString (now + 2),
                 "Sorry, I encountered an error while processing your request: " ++ m,
                 .bot, now, false, some m⟩,
                by simp [sendMessageChat, h], rfl, rfl⟩
      | success tr =>
        cases fOut with
        | failure m =>
          refine ⟨by simp [sendMessageChat, h],
                  [⟨toString now, content, .user, now, false, none⟩,
                   ⟨toString (now + 1), jsOrElse c "I'm processing your request...",
                    .bot, now, true, none⟩],
                  ⟨toString (now + 2),
                   "Sorry, I encountered an error while processing your request: " ++ m,
                   .bot, now, false, some m⟩,
                  by simp [sendMessageChat, h], rfl, rfl⟩
        | success txt => simp [turnFails] at hf

/-- Witness for C7 (amended): the transport-failure turn ends with the busy
flag cleared and an appended bot message carrying the error. -/
theorem errors_caught_witness :
    (sendMessageChat envTransportFail "please retry" ⟨[], false, []⟩).1.isLoading = false ∧
    ∃ ms emsg, (sendMessageChat envTransportFail "please retry" ⟨[], false, []⟩).1.messages
        = ([] : List Message) ++ ms ++ [emsg] ∧
      emsg.sender = .bot ∧ emsg.error.isSome = true :=
  errors_caught_at_turn_boundary envTransportFail "please retry" ⟨[], false, []⟩
    (by decide) rfl

/-- C6: the text extracted from a successful tool result is the in-order
newline-join of the text-typed content blocks when the result carries an
array `content` (so `[{type:"text",text:"A"},{type:"text",text:"B"}]`
extracts to `"A\nB"`, and that string is the tool-result entry folded into
history), and the `JSON.stringify` serialization of the whole result
otherwise. -/
theorem extracted_text_characterization :
    (∀ texts : List String,
       extractContent (.obj [("content", .arr (texts.map mkTextBlock))])
         = joinWith "\n" texts) ∧
    (∀ r : JSValue, extractionGuard r = false → extractContent r = stringifyJSON r) ∧
    (⟨Role.function, "A\nB", some "list_journeys"⟩ : ChatMessage)
      ∈ (sendMessageChat envRoundTrip "list journeys" ⟨[], false, []⟩).1.openaiHistory := by
  refine ⟨?_, ?_, ?_⟩
  · intro texts
    have hguard : extractContent (.obj [("content", .arr (texts.map mkTextBlock))])
        = joinWith "\n" (((texts.map mkTextBlock).filter isTextBlock).map
            (fun item => joinPiece (getField item "text"))) := rfl
    rw [hguard]
    congr 1
    have hfilter : (texts.map mkTextBlock).filter isTextBlock = texts.map mkTextBlock := by
      apply List.filter_eq_self.mpr
      intro b hb
      rcases List.mem_map.mp hb with ⟨s, hs, hbs⟩
      subst hbs
      rfl
    rw [hfilter, List.map_map]
    have hcomp : ((fun item => joinPiece (getField item "text")) ∘ mkTextBlock)
        = fun s => s := by
      funext s
      rfl
    rw [hcomp]
    exact List.map_id texts
  · intro r hr
    unfold extractContent
    rcases ht : truthy r with _ | _
    · simp [ht]
    · rw [if_pos rfl]
      rcases hg : getField r "content" with _ | v
      · simp [hg]
      · cases v with
        | arr blocks =>
          exfalso
          rw [extractionGuard, ht, hg] at hr
          simp at hr
        | null => simp [hg]
        | bool b => simp [hg]
        | num n => simp [hg]
        | str s => simp [hg]
        | obj fs => simp [hg]
  · decide

/-- Witness for C6: two text blocks extract to `"A\nB"`; a bare string
result (guard false) falls back to its `JSON.stringify` form. -/
theorem extracted_text_witness :
    extractContent (.obj [("content", .arr [mkTextBlock "A", mkTextBlock "B"])]) = "A\nB" ∧
    extractContent (.str "oops") = stringifyJSON (.str "oops") :=
  ⟨(extracted_text_characterization.1 ["A", "B"]).trans rfl,
   extracted_text_characterization.2.1 (.str "oops") rfl⟩
